import Mathlib

/-
  Verification of the france_diplo map-fetching pipeline (src/fetch.py)
  against its natural-language specification.

  The embedding is shallow: the pure helpers of fetch.py (find_image,
  guess_date, the filename derivation of download_map) are translated to
  Lean functions, and the effectful per-country pipeline process_country
  is translated to a function over an explicit environment (outcomes of
  the network calls and file writes) and an explicit record-store state
  (a list of map rows).  A propagating Python exception is modelled as an
  Except.error result; a caught-and-logged one as an ok result plus a log
  message.
-/

namespace FranceDiplo

/-! ## Dates (model of Python datetime as used by strptime) -/

/-- A calendar date as validated by Python datetime: year in 1..9999,
month in 1..12, day in 1..days of the month. -/
structure PyDate where
  year : Nat
  month : Nat
  day : Nat
deriving DecidableEq, Repr

def isLeapYear (y : Nat) : Bool :=
  y % 4 == 0 && (y % 100 != 0 || y % 400 == 0)

def daysInMonth (y m : Nat) : Nat :=
  if m == 2 then (if isLeapYear y then 29 else 28)
  else if m == 4 || m == 6 || m == 9 || m == 11 then 30
  else 31

def validDate (y m d : Nat) : Bool :=
  1 ≤ y && y ≤ 9999 && 1 ≤ m && m ≤ 12 && 1 ≤ d && d ≤ daysInMonth y m

/-- strptime either yields a valid date or raises ValueError (error). -/
def mkValidDate (y m d : Nat) : Except Unit PyDate :=
  if validDate y m d then .ok ⟨y, m, d⟩ else .error ()

def digitsToNat (l : List Char) : Nat :=
  l.foldl (fun a c => a * 10 + (c.toNat - 48)) 0

/-! ## urlparse (the fields of Python urllib.parse.urlparse that fetch.py
uses: netloc and path) -/

def isSchemeChar (c : Char) : Bool :=
  c.isAlpha || c.isDigit || c == '+' || c == '-' || c == '.'

/-- Drop a leading "scheme:" when the text before the first colon is a
nonempty run of scheme characters starting with a letter (CPython
urlsplit). -/
def splitScheme (l : List Char) : List Char :=
  let pre := l.takeWhile (fun c => !(c == ':'))
  if pre.length == l.length then l
  else
    match pre with
    | [] => l
    | c :: _ =>
      if c.isAlpha && pre.all isSchemeChar then l.drop (pre.length + 1) else l

/-- After the scheme, a leading "//" introduces the netloc, which extends
to the next one of / ? #.  Returns (netloc, remainder). -/
def netlocAndRest (l : List Char) : List Char × List Char :=
  match l with
  | '/' :: '/' :: rest =>
    let nl := rest.takeWhile (fun c => !(c == '/' || c == '?' || c == '#'))
    (nl, rest.drop nl.length)
  | _ => ([], l)

/-- The path stops at the first ? (query) or # (fragment). -/
def pathOf (l : List Char) : List Char :=
  (l.takeWhile (fun c => !(c == '#'))).takeWhile (fun c => !(c == '?'))

/-- netloc and path of urlparse, as lists of characters. -/
def urlparseNetlocPath (s : String) : List Char × List Char :=
  let l := splitScheme s.toList
  let (nl, rest) := netlocAndRest l
  (nl, pathOf rest)

/-- urlparse(s).netloc + urlparse(s).path, the normalization applied at
the end of find_image (fetch.py lines 75-76). -/
def pyNetlocPath (s : String) : String :=
  let (nl, p) := urlparseNetlocPath s
  String.mk (nl ++ p)

/-- os.path.basename: the segment after the last slash. -/
def basename (l : List Char) : List Char :=
  (l.reverse.takeWhile (fun c => !(c == '/'))).reverse

/-- os.path.basename(urlparse(url).path), fetch.py line 100. -/
def fnameOf (url : String) : List Char :=
  basename (urlparseNetlocPath url).2

/-! ## The regex patterns of guess_date

re.findall(".*(P).*", s) with a greedy leading ".*" (which does not
cross newlines) yields, as its first result, the match found in the
first newline-separated line of s that contains the pattern, and within
that line the leading greedy ".*" makes the captured group the rightmost
occurrence of P. -/

def splitLines : List Char → List (List Char)
  | [] => [[]]
  | c :: rest =>
    let r := splitLines rest
    if c == '\n' then [] :: r
    else
      match r with
      | h :: t => (c :: h) :: t
      | [] => [[c]]

/-- The suffix starting at the largest index whose prefix satisfies the
check (the rightmost occurrence, matching the greedy leading dot-star). -/
def rightmostStart (check : List Char → Bool) (l : List Char) : Option (List Char) :=
  ((List.range (l.length + 1)).reverse.find? (fun i => check (l.drop i))).map
    (fun i => l.drop i)

def findallFirst (one : List Char → Option (List Char)) (l : List Char) :
    Option (List Char) :=
  (splitLines l).findSome? one

/-- Eight consecutive digits start here. -/
def match8digits (l : List Char) : Bool :=
  (l.take 8).length == 8 && (l.take 8).all Char.isDigit

/-- First captured group of re.findall for eight consecutive digits. -/
def find8 (l : List Char) : Option (List Char) :=
  findallFirst (fun line => (rightmostStart match8digits line).map (·.take 8)) l

/-- The shape dd-dd-dddd starts here. -/
def matchDDMMYYYY (l : List Char) : Bool :=
  match l with
  | a :: b :: '-' :: c :: d :: '-' :: e :: f :: g :: h :: _ =>
    a.isDigit && b.isDigit && c.isDigit && d.isDigit &&
      e.isDigit && f.isDigit && g.isDigit && h.isDigit
  | _ => false

def findDDMMYYYY (l : List Char) : Option (List Char) :=
  findallFirst (fun line => (rightmostStart matchDDMMYYYY line).map (·.take 10)) l

/-- The shape dd-dd-dd starts here. -/
def matchDDMMYY (l : List Char) : Bool :=
  match l with
  | a :: b :: '-' :: c :: d :: '-' :: e :: f :: _ =>
    a.isDigit && b.isDigit && c.isDigit && d.isDigit && e.isDigit && f.isDigit
  | _ => false

def findDDMMYY (l : List Char) : Option (List Char) :=
  findallFirst (fun line => (rightmostStart matchDDMMYY line).map (·.take 8)) l

/-! ## The strptime calls of guess_date -/

/-- strptime(d8, "%Y%m%d"). -/
def parseYMD8 (l : List Char) : Except Unit PyDate :=
  mkValidDate (digitsToNat (l.take 4)) (digitsToNat ((l.drop 4).take 2))
    (digitsToNat (l.drop 6))

/-- strptime(d8, "%d%m%Y"). -/
def parseDMY8 (l : List Char) : Except Unit PyDate :=
  mkValidDate (digitsToNat (l.drop 4)) (digitsToNat ((l.drop 2).take 2))
    (digitsToNat (l.take 2))

/-- strptime(d10, "%d-%m-%Y"). -/
def parseDMYdash (l : List Char) : Except Unit PyDate :=
  mkValidDate (digitsToNat (l.drop 6)) (digitsToNat ((l.drop 3).take 2))
    (digitsToNat (l.take 2))

/-- strptime(d8, "%d-%m-%y"); two-digit years 00-68 are 2000-2068 and
69-99 are 1969-1999. -/
def parseDMYY (l : List Char) : Except Unit PyDate :=
  let yy := digitsToNat (l.drop 6)
  mkValidDate (if yy ≤ 68 then 2000 + yy else 1900 + yy)
    (digitsToNat ((l.drop 3).take 2)) (digitsToNat (l.take 2))

/-! ## guess_date (fetch.py lines 98-119) -/

/-- The branch guess_date takes: a parsed date, or the fallback branch
that returns datetime.now() after logging a warning. -/
inductive DateOutcome where
  | parsed (d : PyDate)
  | fallbackNow
deriving DecidableEq, Repr

/-- The control flow of guess_date on the filename extracted from the
record url: three patterns tried in order, each matched pattern handed to
a strict strptime whose ValueError propagates; no match falls through;
when nothing matches, the fallback branch is taken. -/
def guessDateOutcome (url : String) : Except Unit DateOutcome :=
  match find8 (fnameOf url) with
  | some d8 =>
    if digitsToNat (d8.take 4) < 2013 then (parseDMY8 d8).map DateOutcome.parsed
    else (parseYMD8 d8).map DateOutcome.parsed
  | none =>
    match findDDMMYYYY (fnameOf url) with
    | some d10 => (parseDMYdash d10).map DateOutcome.parsed
    | none =>
      match findDDMMYY (fnameOf url) with
      | some dy => (parseDMYY dy).map DateOutcome.parsed
      | none => .ok DateOutcome.fallbackNow

/-! ## Log messages emitted by the pipeline -/

inductive LogMsg where
  | cantFindMapUrl (countryName : String)
  | noNewMap (countryName : String)
  | alreadyExists (countryName ownerName : String)
  | dateFallback (countryId filename : String)
  | downloading (countryId filename : String)
  | couldNotDownload (countryName : String)
  | cantFindMap (countryName : String)
deriving DecidableEq, Repr

/-- guess_date as called by download_map: resolves the fallback branch to
the current time (passed in as now) and reports the warning log of line
117, which names the country id and the filename. -/
def guess_date (now : PyDate) (cid url : String) :
    Except Unit PyDate × List LogMsg :=
  match guessDateOutcome url with
  | .error e => (.error e, [])
  | .ok (.parsed d) => (.ok d, [])
  | .ok .fallbackNow => (.ok now, [.dateFallback cid (String.mk (fnameOf url))])

/-! ## find_image (fetch.py lines 58-76) -/

/-- A parsed advisory page, reduced to the three selector queries
find_image performs.  A field is some v when the selector matches and v
is the attribute the code reads from the first hit (the img src inside
dl.spip_documents, the href of a.spip_in.mediabox, the img src inside
figure.spip_documents); none when the selector has no hit. -/
structure Soup where
  dlSpipDocuments : Option String
  mediabox : Option String
  figureSpipDocuments : Option String
deriving DecidableEq, Repr

/-- Lines 72-76 of find_image: a falsy (empty) url yields None, otherwise
the urlparse netloc + path with query and fragment stripped. -/
def urlFinish (v : String) : Option String :=
  if v == "" then none else some (pyNetlocPath v)

/-- find_image: each selector in turn overwrites url when it matches, so
the last matching selector wins; then the normalization of lines 72-76. -/
def find_image (soup : Soup) : Option String :=
  let url : Option String := none
  let url := match soup.dlSpipDocuments with
    | some v => some v
    | none => url
  let url := match soup.mediabox with
    | some v => some v
    | none => url
  let url := match soup.figureSpipDocuments with
    | some v => some v
    | none => url
  match url with
  | none => none
  | some v => urlFinish v

/-- The raw value selected by the override chain of lines 58-71 (the last
matching selector), before the normalization of lines 72-76. -/
def matchedValue (soup : Soup) : Option String :=
  match soup.figureSpipDocuments with
  | some v => some v
  | none =>
    match soup.mediabox with
    | some v => some v
    | none => soup.dlSpipDocuments

/-! ## The record store (table Map of fetch.py) -/

/-- A row of the Map table: the country foreign key (the country id),
the url (set at claim time), and the filename and date columns that stay
NULL until m.save() runs after the download.  The url and filename
columns carry unique constraints. -/
structure MapRow where
  country : String
  url : String
  filename : Option String
  date : Option PyDate
deriving DecidableEq, Repr

abbrev DB := List MapRow

structure CountryT where
  country_id : String
  country_name : String
deriving DecidableEq, Repr

/-! ## download_map and process_country (fetch.py lines 84-95, 122-147)

The outcomes of the effectful calls are supplied by an environment: the
page GET of line 124 (after the three retry attempts of get_request), the
streamed GET of line 91, the chunked file write of lines 93-95, and the
value of datetime.now().  Except.error models a Python exception reaching
that point. -/

structure Env where
  fetch : Except Unit Soup
  dlStatus : Except Unit Nat
  writeOk : Bool
  now : PyDate

def digitChar (n : Nat) : Char := Char.ofNat (48 + n)

def natToDigitsAux : Nat → Nat → List Char
  | 0, _ => []
  | fuel + 1, n =>
    if n < 10 then [digitChar n]
    else natToDigitsAux fuel (n / 10) ++ [digitChar (n % 10)]

def natToDigits (n : Nat) : List Char := natToDigitsAux (n + 1) n

def padZeroes (w : Nat) (l : List Char) : List Char :=
  List.replicate (w - l.length) '0' ++ l

/-- strftime("%Y%m%d"): zero-padded year, month, day. -/
def fmt8 (d : PyDate) : List Char :=
  padZeroes 4 (natToDigits d.year) ++ padZeroes 2 (natToDigits d.month) ++
    padZeroes 2 (natToDigits d.day)

/-- The filename derived at line 88: country id, formatted date, ".jpg". -/
def mapFilename (cid : String) (d : PyDate) : String :=
  cid ++ "_" ++ String.mk (fmt8 d) ++ ".jpg"

/-- download_map: infer the date, derive the filename, stream the GET;
on status 200 write the file chunk by chunk, otherwise return without
writing.  The first component is the outcome (date, filename, list of
files fully written), error meaning an exception escaped download_map;
the second the log lines emitted before that point.  A write failure may
leave a partial file on disk; that partial file is not modelled. -/
def download_map (env : Env) (cid murl : String) :
    Except Unit (PyDate × String × List String) × List LogMsg :=
  match guess_date env.now cid murl with
  | (.error e, ls) => (.error e, ls)
  | (.ok d, ls) =>
    let fname := mapFilename cid d
    let ls := ls ++ [.downloading cid fname]
    match env.dlStatus with
    | .error e => (.error e, ls)
    | .ok st =>
      if st == 200 then
        if env.writeOk then (.ok (d, fname, [fname]), ls)
        else (.error (), ls)
      else (.ok (d, fname, []), ls)

/-- The result of one country pipeline: the store afterwards, the outcome
of the task (error means an exception escaped process_country into the
nursery), the log lines, and the files written. -/
structure PCResult where
  db : DB
  outcome : Except Unit Unit
  logs : List LogMsg
  files : List String
deriving Repr

/-- process_country: fetch the page (line 124, uncaught), extract the
image url, stop on a falsy url (line 127), stop when the exact
(country, url) row exists (line 130), create the claim row unless the
global url-uniqueness constraint rejects it, in which case look up the
owning row and log its country name (lines 133-138); then the guarded
download and save of lines 140-147, whose exceptions are caught and
logged.  m.save() persists filename and date onto the claim row unless
the unique filename constraint rejects the update. -/
def process_country (env : Env) (countries : List CountryT) (c : CountryT)
    (db : DB) : PCResult :=
  match env.fetch with
  | .error e => ⟨db, .error e, [], []⟩
  | .ok soup =>
    match find_image soup with
    | none => ⟨db, .ok (), [.cantFindMapUrl c.country_name], []⟩
    | some url =>
      if url == "" then ⟨db, .ok (), [.cantFindMapUrl c.country_name], []⟩
      else if db.any (fun r => r.country == c.country_id && r.url == url) then
        ⟨db, .ok (), [.noNewMap c.country_name], []⟩
      else if db.any (fun r => r.url == url) then
        let ownerName :=
          match db.find? (fun r => r.url == url) with
          | some r =>
            (match countries.find? (fun ct => ct.country_id == r.country) with
             | some ct => ct.country_name
             | none => "")
          | none => ""
        ⟨db, .ok (), [.alreadyExists c.country_name ownerName], []⟩
      else
        let db1 := db ++ [⟨c.country_id, url, none, none⟩]
        if url == "" then ⟨db1, .ok (), [.cantFindMap c.country_name], []⟩
        else
          match download_map env c.country_id url with
          | (.error _, ls) =>
            ⟨db1, .ok (), ls ++ [.couldNotDownload c.country_name], []⟩
          | (.ok (d, fname, files), ls) =>
            if db1.any (fun r => r.filename == some fname) then
              ⟨db1, .ok (), ls ++ [.couldNotDownload c.country_name], files⟩
            else
              ⟨db ++ [⟨c.country_id, url, some fname, some d⟩], .ok (), ls, files⟩

/-! ## Theorems about find_image -/

/-- find_image is the last-wins selection followed by the final
normalization of lines 72-76. -/
theorem find_image_eq_matchedValue (s : Soup) :
    find_image s =
      match matchedValue s with
      | none => none
      | some v => urlFinish v := by
  obtain ⟨d, mb, fg⟩ := s
  cases fg <;> cases mb <;> cases d <;> rfl

/-- Claim C5: the three layout rules are evaluated in a fixed order and
each later matching rule overwrites the earlier result, so the last
matching rule wins: when the figure gallery matches, its source decides
the result regardless of the other rules; when only the mediabox matches
among the later rules it overrides the document gallery; the document
gallery is used only when the other two rules miss.  In particular, when
both the document gallery block and the figure gallery match, the result
is computed from the figure-gallery image source. -/
theorem C5_last_matching_rule_wins (s : Soup) (v : String) :
    (s.figureSpipDocuments = some v → find_image s = urlFinish v) ∧
    (s.figureSpipDocuments = none → s.mediabox = some v →
      find_image s = urlFinish v) ∧
    (s.figureSpipDocuments = none → s.mediabox = none →
      s.dlSpipDocuments = some v → find_image s = urlFinish v) := by
  obtain ⟨d, mb, fg⟩ := s
  refine ⟨?_, ?_, ?_⟩
  · intro h
    simp only at h
    subst h
    rfl
  · intro h1 h2
    simp only at h1 h2
    subst h1; subst h2
    cases d <;> rfl
  · intro h1 h2 h3
    simp only at h1 h2 h3
    subst h1; subst h2; subst h3
    rfl

/-- Witness for C5: a page where both the document gallery and the
figure gallery match; the figure-gallery source wins. -/
theorem C5_witness :
    find_image ⟨some "IMG/a.jpg", none, some "IMG/b.jpg"⟩ = some "IMG/b.jpg" := by
  have h := (C5_last_matching_rule_wins
    ⟨some "IMG/a.jpg", none, some "IMG/b.jpg"⟩ "IMG/b.jpg").1 rfl
  exact h.trans rfl

/-- Counterexample for C6: when a rule matches with an empty source
value, the code returns None at the falsy check of line 73 before any
normalization, so the result is not netloc plus path of the matched
value (which would be some empty string). -/
theorem C6_counterexample :
    ¬ ∀ (s : Soup) (v : String),
        matchedValue s = some v → find_image s = some (pyNetlocPath v) := by
  intro h
  have h2 := h ⟨some "", none, none⟩ "" rfl
  rw [show find_image ⟨some "", none, none⟩ = none from rfl] at h2
  exact Option.noConfusion h2

/-- Claim C6 as amended: when some rule matched with a NONEMPTY value,
the result is exactly the netloc concatenated with the path of that
value, query string and fragment stripped; when no rule matched, or the
matched value is empty (falsy), the extractor returns none. -/
theorem C6_amended_normalization (s : Soup) (v : String) :
    (matchedValue s = some v → (v == "") = false →
      find_image s = some (pyNetlocPath v)) ∧
    (matchedValue s = none ∨ matchedValue s = some "" →
      find_image s = none) := by
  constructor
  · intro h hne
    rw [find_image_eq_matchedValue, h]
    simp [urlFinish, hne]
  · rintro (h | h) <;> rw [find_image_eq_matchedValue, h]
    rfl

/-- Witness for C6 as amended: a mediabox link with a query string is
returned with the query stripped. -/
theorem C6_witness :
    find_image ⟨none, some "IMG/c.jpg?12345", none⟩ = some "IMG/c.jpg" := by
  have h := (C6_amended_normalization ⟨none, some "IMG/c.jpg?12345", none⟩
    "IMG/c.jpg?12345").1 rfl rfl
  exact h.trans rfl

/-! ## Theorems about guess_date -/

/-- Claim C7: when the filename holds eight consecutive digits, they are
read as YYYYMMDD unless the leading four digits are below 2013, in which
case they are reread as DDMMYYYY; and the two examples of the spec. -/
theorem C7_eight_digit_rule :
    (∀ (url : String) (d8 : List Char), find8 (fnameOf url) = some d8 →
      guessDateOutcome url =
        (if digitsToNat (d8.take 4) < 2013 then parseDMY8 d8
         else parseYMD8 d8).map DateOutcome.parsed) ∧
    guessDateOutcome "report_20210315_x.jpg" =
      .ok (.parsed ⟨2021, 3, 15⟩) ∧
    guessDateOutcome "report_05122007.jpg" =
      .ok (.parsed ⟨2007, 12, 5⟩) := by
  refine ⟨?_, rfl, rfl⟩
  intro url d8 h
  unfold guessDateOutcome
  rw [h]
  dsimp only
  by_cases hc : digitsToNat (d8.take 4) < 2013
  · rw [if_pos hc, if_pos hc]
  · rw [if_neg hc, if_neg hc]

/-- Witness for C7 at a further concrete input. -/
theorem C7_witness :
    guessDateOutcome "carte_20200301.jpg" = .ok (.parsed ⟨2020, 3, 1⟩) := by
  have h := C7_eight_digit_rule.1 "carte_20200301.jpg" "20200301".toList rfl
  rw [h]
  rfl

/-- Counterexample for C8: on a filename whose eight matched digits do
not form a valid calendar date, strptime raises and the error escapes
guess_date: the inferrer does throw. -/
theorem C8_counterexample :
    ¬ ∀ url : String, ∃ o, guessDateOutcome url = Except.ok o := by
  intro h
  obtain ⟨o, ho⟩ := h "x_99999999.jpg"
  rw [show guessDateOutcome "x_99999999.jpg" = Except.error () from rfl] at ho
  exact Except.noConfusion ho

/-- Claim C8 as amended: the patterns themselves either match or fall
through, and an input matching no pattern never throws (it reaches the
fallback); but once a pattern has matched, the strict parse of the
matched digits throws when they do not denote a valid calendar date in
the selected format, instead of falling through to the next pattern: any
error of the inferrer comes from the parse of the first matching
pattern. -/
theorem C8_amended_throws_only_on_invalid_dates (url : String) :
    ((find8 (fnameOf url) = none ∧ findDDMMYYYY (fnameOf url) = none ∧
        findDDMMYY (fnameOf url) = none) →
      guessDateOutcome url = .ok .fallbackNow) ∧
    (guessDateOutcome url = .error () →
      (∃ d8, find8 (fnameOf url) = some d8 ∧
        (if digitsToNat (d8.take 4) < 2013 then parseDMY8 d8
         else parseYMD8 d8) = .error ()) ∨
      (∃ dt, find8 (fnameOf url) = none ∧
        findDDMMYYYY (fnameOf url) = some dt ∧ parseDMYdash dt = .error ()) ∨
      (∃ dy, find8 (fnameOf url) = none ∧ findDDMMYYYY (fnameOf url) = none ∧
        findDDMMYY (fnameOf url) = some dy ∧ parseDMYY dy = .error ())) := by
  constructor
  · rintro ⟨h1, h2, h3⟩
    unfold guessDateOutcome
    rw [h1, h2, h3]
  · intro he
    unfold guessDateOutcome at he
    cases h8 : find8 (fnameOf url) with
    | some d8 =>
      rw [h8] at he
      dsimp only at he
      left
      refine ⟨d8, rfl, ?_⟩
      by_cases hc : digitsToNat (d8.take 4) < 2013
      · rw [if_pos hc] at he ⊢
        cases hp : parseDMY8 d8 with
        | error e => rfl
        | ok d => rw [hp] at he; exact Except.noConfusion he
      · rw [if_neg hc] at he ⊢
        cases hp : parseYMD8 d8 with
        | error e => rfl
        | ok d => rw [hp] at he; exact Except.noConfusion he
    | none =>
      rw [h8] at he
      dsimp only at he
      cases h10 : findDDMMYYYY (fnameOf url) with
      | some dt =>
        rw [h10] at he
        dsimp only at he
        right; left
        refine ⟨dt, rfl, rfl, ?_⟩
        cases hp : parseDMYdash dt with
        | error e => rfl
        | ok d => rw [hp] at he; exact Except.noConfusion he
      | none =>
        rw [h10] at he
        dsimp only at he
        cases hy : findDDMMYY (fnameOf url) with
        | some dy =>
          rw [hy] at he
          dsimp only at he
          right; right
          refine ⟨dy, rfl, rfl, rfl, ?_⟩
          cases hp : parseDMYY dy with
          | error e => rfl
          | ok d => rw [hp] at he; exact Except.noConfusion he
        | none =>
          rw [hy] at he
          dsimp only at he
          exact Except.noConfusion he

/-- Witness for C8 as amended: a name with no date pattern reaches the
fallback without error. -/
theorem C8_witness : guessDateOutcome "noinfo.jpg" = .ok .fallbackNow :=
  (C8_amended_throws_only_on_invalid_dates "noinfo.jpg").1 ⟨rfl, rfl, rfl⟩

/-- Counterexample for C9: the value guess_date returns to its caller is
a bare timestamp that does not determine whether the fallback branch was
taken: a fallback at the current time and a successful parse of the same
date return the same value, so the fallback is not signaled in a
caller-visible way. -/
theorem C9_counterexample :
    ¬ ∀ (now : PyDate) (cid u1 u2 : String),
        (guess_date now cid u1).1 = (guess_date now cid u2).1 →
        (guessDateOutcome u1 = .ok .fallbackNow ↔
          guessDateOutcome u2 = .ok .fallbackNow) := by
  intro h
  have h2 := h ⟨2021, 3, 15⟩ "france" "noinfo.jpg" "report_20210315_x.jpg" rfl
  have h3 := h2.mp rfl
  rw [show guessDateOutcome "report_20210315_x.jpg" =
      .ok (.parsed ⟨2021, 3, 15⟩) from rfl] at h3
  injection h3 with h4
  exact DateOutcome.noConfusion h4

/-- Claim C9 as amended: when no pattern matches the filename, the
inferrer returns the current timestamp and logs a warning naming the
country id and the filename from inside the inferrer itself (which
receives the record and so has that context); the returned value carries
no fallback marker. -/
theorem C9_amended_fallback_logged (now : PyDate) (cid url : String)
    (h : guessDateOutcome url = .ok .fallbackNow) :
    guess_date now cid url =
      (.ok now, [.dateFallback cid (String.mk (fnameOf url))]) := by
  unfold guess_date
  rw [h]

/-- Witness for C9 as amended. -/
theorem C9_witness :
    guess_date ⟨2024, 6, 1⟩ "france" "noinfo.jpg" =
      (.ok ⟨2024, 6, 1⟩, [.dateFallback "france" "noinfo.jpg"]) := by
  have h := C9_amended_fallback_logged ⟨2024, 6, 1⟩ "france" "noinfo.jpg" rfl
  exact h.trans rfl

/-! ## Theorems about process_country -/

/-- When the page fetch succeeds, no exception escapes process_country:
every later failure is caught by the except of lines 144-145 or handled
by an explicit branch. -/
theorem process_country_ok_of_fetch_ok (env : Env) (countries : List CountryT)
    (c : CountryT) (db : DB) (soup : Soup) (h : env.fetch = .ok soup) :
    (process_country env countries c db).outcome = .ok () := by
  unfold process_country
  rw [h]
  dsimp only
  repeat' split
  all_goals rfl

/-- Counterexample for C1: a fetch failure (after retries) at line 124
is outside every try block, so the exception escapes process_country
into the nursery, which cancels the sibling country tasks. -/
theorem C1_counterexample :
    ¬ ∀ (env : Env) (countries : List CountryT) (c : CountryT) (db : DB),
        (process_country env countries c db).outcome = .ok () := by
  intro h
  have h2 := h ⟨.error (), .ok 200, true, ⟨2021, 3, 15⟩⟩ [] ⟨"france", "France"⟩ []
  rw [show (process_country ⟨.error (), .ok 200, true, ⟨2021, 3, 15⟩⟩ []
      ⟨"france", "France"⟩ []).outcome = .error () from rfl] at h2
  exact Except.noConfusion h2

/-- Claim C1 as amended: among the failure kinds modelled (page fetch
after retries, date parse, streamed request, file write, record save),
exactly the fetch failure escapes the per-country boundary: the pipeline
propagates an exception to the coordinator if and only if the page fetch
of line 124 fails, while every failure inside the download phase is
caught and logged, and the trio nursery then cancels the remaining
country tasks on such a propagated failure instead of letting them all
finish undisturbed. -/
theorem C1_amended_only_fetch_failure_propagates (env : Env)
    (countries : List CountryT) (c : CountryT) (db : DB) :
    (process_country env countries c db).outcome = .error () ↔
      env.fetch = .error () := by
  constructor
  · intro h
    cases hf : env.fetch with
    | error e => cases e; rfl
    | ok soup =>
      rw [process_country_ok_of_fetch_ok env countries c db soup hf] at h
      exact Except.noConfusion h
  · intro h
    unfold process_country
    rw [h]

/-- Witness for C1 as amended, at a concrete failing fetch. -/
theorem C1_witness :
    (process_country ⟨.error (), .error (), false, ⟨2024, 1, 1⟩⟩
      [⟨"it", "Italie"⟩] ⟨"it", "Italie"⟩ []).outcome = .error () :=
  (C1_amended_only_fetch_failure_propagates _ _ _ _).mpr rfl

/-- Claim C2: when the claim row was created and the download then
raises, the exception is caught, the run goes on, and the store holds
exactly one row for the (country, url) pair, with filename and date
still unset. -/
theorem C2_failed_download_leaves_dangling_claim (env : Env)
    (countries : List CountryT) (c : CountryT) (db : DB) (soup : Soup)
    (u : String)
    (hf : env.fetch = .ok soup)
    (hu : find_image soup = some u)
    (hne : (u == "") = false)
    (hdup : db.any (fun r => r.country == c.country_id && r.url == u) = false)
    (hurl : db.any (fun r => r.url == u) = false)
    (hdl : (download_map env c.country_id u).1 = .error ()) :
    (process_country env countries c db).outcome = .ok () ∧
    (process_country env countries c db).db =
      db ++ [⟨c.country_id, u, none, none⟩] ∧
    ((process_country env countries c db).db.filter
        (fun r => r.country == c.country_id && r.url == u)).length = 1 := by
  have key : ∃ ls2, process_country env countries c db =
      ⟨db ++ [⟨c.country_id, u, none, none⟩], .ok (), ls2, []⟩ := by
    unfold process_country
    rw [hf]
    dsimp only
    rw [hu]
    dsimp only
    rw [if_neg (by simp [hne]), if_neg (by simp [hdup]), if_neg (by simp [hurl]),
      if_neg (by simp [hne])]
    rcases hdm : download_map env c.country_id u with ⟨o, ls⟩
    rw [hdm] at hdl
    dsimp only at hdl
    subst hdl
    exact ⟨ls ++ [.couldNotDownload c.country_name], rfl⟩
  obtain ⟨ls2, key⟩ := key
  rw [key]
  refine ⟨rfl, rfl, ?_⟩
  dsimp only
  rw [List.filter_append]
  have hnil : db.filter (fun r => r.country == c.country_id && r.url == u) = [] := by
    rw [List.filter_eq_nil_iff]
    exact fun a ha => (List.any_eq_false.mp hdup) a ha
  rw [hnil]
  simp

/-- Witness for C2: a concrete run whose streamed request raises leaves
the single dangling claim row. -/
theorem C2_witness :
    (process_country ⟨.ok ⟨some "IMG/x_20200101.jpg", none, none⟩, .error (),
        true, ⟨2021, 3, 15⟩⟩ [] ⟨"pays", "Pays"⟩ []).db =
      [⟨"pays", "IMG/x_20200101.jpg", none, none⟩] := by
  have h := C2_failed_download_leaves_dangling_claim
    ⟨.ok ⟨some "IMG/x_20200101.jpg", none, none⟩, .error (), true, ⟨2021, 3, 15⟩⟩
    [] ⟨"pays", "Pays"⟩ [] ⟨some "IMG/x_20200101.jpg", none, none⟩
    "IMG/x_20200101.jpg" rfl rfl rfl rfl rfl rfl
  exact h.2.1

/-- Claim C3: when the store rejects the claiming insert because the url
is already owned by another row, the pipeline looks up the owning row,
logs the owning country name as a warning, and stops for this country
with the store unchanged, no file written and no propagated error. -/
theorem C3_url_conflict_logs_owner (env : Env) (countries : List CountryT)
    (c : CountryT) (db : DB) (soup : Soup) (u : String) (r0 : MapRow)
    (oc : CountryT)
    (hf : env.fetch = .ok soup)
    (hu : find_image soup = some u)
    (hne : (u == "") = false)
    (hdup : db.any (fun r => r.country == c.country_id && r.url == u) = false)
    (hfind : db.find? (fun r => r.url == u) = some r0)
    (hoc : countries.find? (fun ct => ct.country_id == r0.country) = some oc) :
    process_country env countries c db =
      ⟨db, .ok (), [.alreadyExists c.country_name oc.country_name], []⟩ := by
  have hurl : db.any (fun r => r.url == u) = true := by
    rw [List.any_eq_true]
    have hmem := List.mem_of_find?_eq_some hfind
    have hp := List.find?_some hfind
    exact ⟨r0, hmem, hp⟩
  unfold process_country
  rw [hf]
  dsimp only
  rw [hu]
  dsimp only
  rw [if_neg (by simp [hne]), if_neg (by simp [hdup]), if_pos (by simp [hurl]),
    hfind]
  dsimp only
  rw [hoc]

/-- Witness for C3: a url already claimed by another country is reported
with that owning country name. -/
theorem C3_witness :
    process_country ⟨.ok ⟨some "IMG/x.jpg", none, none⟩, .ok 200, true,
        ⟨2021, 3, 15⟩⟩ [⟨"espagne", "Espagne"⟩] ⟨"france", "France"⟩
        [⟨"espagne", "IMG/x.jpg", none, none⟩] =
      ⟨[⟨"espagne", "IMG/x.jpg", none, none⟩], .ok (),
        [.alreadyExists "France" "Espagne"], []⟩ :=
  C3_url_conflict_logs_owner _ _ _ _ _ "IMG/x.jpg"
    ⟨"espagne", "IMG/x.jpg", none, none⟩ ⟨"espagne", "Espagne"⟩
    rfl rfl rfl rfl rfl rfl

/-- Claim C4: when a row for the exact (country, url) pair already
exists, the pipeline logs that there is no new map and stops with the
store unchanged, no file written and no propagated error. -/
theorem C4_duplicate_map_leaves_store_unchanged (env : Env)
    (countries : List CountryT) (c : CountryT) (db : DB) (soup : Soup)
    (u : String)
    (hf : env.fetch = .ok soup)
    (hu : find_image soup = some u)
    (hne : (u == "") = false)
    (hdup : db.any (fun r => r.country == c.country_id && r.url == u) = true) :
    process_country env countries c db =
      ⟨db, .ok (), [.noNewMap c.country_name], []⟩ := by
  unfold process_country
  rw [hf]
  dsimp only
  rw [hu]
  dsimp only
  rw [if_neg (by simp [hne]), if_pos (by simp [hdup])]

/-- Witness for C4: re-processing a country with its recorded url. -/
theorem C4_witness :
    process_country ⟨.ok ⟨some "IMG/y.jpg", none, none⟩, .ok 200, true,
        ⟨2021, 3, 15⟩⟩ [] ⟨"japon", "Japon"⟩
        [⟨"japon", "IMG/y.jpg", some "japon_20200101.jpg", some ⟨2020, 1, 1⟩⟩] =
      ⟨[⟨"japon", "IMG/y.jpg", some "japon_20200101.jpg", some ⟨2020, 1, 1⟩⟩],
        .ok (), [.noNewMap "Japon"], []⟩ :=
  C4_duplicate_map_leaves_store_unchanged _ _ _ _ _ "IMG/y.jpg" rfl rfl rfl rfl

/-- Claim C10: when the streamed request returns a status other than
200, download_map returns normally without writing any file, and
process_country then saves the record: the derived filename and the
inferred date are persisted onto the claim row although no file exists
at that path. -/
theorem C10_non_200_persists_metadata_without_file (env : Env)
    (countries : List CountryT) (c : CountryT) (db : DB) (soup : Soup)
    (u : String) (d : PyDate) (ls : List LogMsg) (st : Nat)
    (hf : env.fetch = .ok soup)
    (hu : find_image soup = some u)
    (hne : (u == "") = false)
    (hdup : db.any (fun r => r.country == c.country_id && r.url == u) = false)
    (hurl : db.any (fun r => r.url == u) = false)
    (hgd : guess_date env.now c.country_id u = (.ok d, ls))
    (hst : env.dlStatus = .ok st)
    (h200 : (st == 200) = false)
    (hfc : db.any (fun r => r.filename ==
        some (mapFilename c.country_id d)) = false) :
    process_country env countries c db =
      ⟨db ++ [⟨c.country_id, u, some (mapFilename c.country_id d), some d⟩],
        .ok (),
        ls ++ [.downloading c.country_id (mapFilename c.country_id d)], []⟩ := by
  have hdm : download_map env c.country_id u =
      (.ok (d, mapFilename c.country_id d, []),
        ls ++ [.downloading c.country_id (mapFilename c.country_id d)]) := by
    unfold download_map
    rw [hgd]
    dsimp only
    rw [hst]
    dsimp only
    rw [if_neg (by simp [h200])]
  unfold process_country
  rw [hf]
  dsimp only
  rw [hu]
  dsimp only
  rw [if_neg (by simp [hne]), if_neg (by simp [hdup]), if_neg (by simp [hurl]),
    if_neg (by simp [hne]), hdm]
  dsimp only
  rw [if_neg ?hsave]
  case hsave =>
    simp only [List.any_append, hfc]
    simp

/-- Witness for C10: a 404 on the streamed request still persists the
filename and date onto the claim row, and no file is written. -/
theorem C10_witness :
    (process_country ⟨.ok ⟨some "IMG/a_20200102.jpg", none, none⟩, .ok 404,
        true, ⟨2021, 3, 15⟩⟩ [] ⟨"italie", "Italie"⟩ []).db =
      [⟨"italie", "IMG/a_20200102.jpg", some "italie_20200102.jpg",
        some ⟨2020, 1, 2⟩⟩] ∧
    (process_country ⟨.ok ⟨some "IMG/a_20200102.jpg", none, none⟩, .ok 404,
        true, ⟨2021, 3, 15⟩⟩ [] ⟨"italie", "Italie"⟩ []).files = [] := by
  have h := C10_non_200_persists_metadata_without_file
    ⟨.ok ⟨some "IMG/a_20200102.jpg", none, none⟩, .ok 404, true, ⟨2021, 3, 15⟩⟩
    [] ⟨"italie", "Italie"⟩ [] ⟨some "IMG/a_20200102.jpg", none, none⟩
    "IMG/a_20200102.jpg" ⟨2020, 1, 2⟩ [] 404 rfl rfl rfl rfl rfl rfl rfl rfl rfl
  exact ⟨by rw [h]; rfl, by rw [h]⟩

end FranceDiplo
